import Mathlib

/-!
Verification of the location-resolution and transfer-orchestration layer of a
small S3 command-line tool (`src/main.rs`).

The embedding is shallow:
* `Location.fromStr` embeds `impl From<&str> for Location`.  The two regular
  expressions `s3://(?P<bucket>[^/]*)(/(?P<key>.*))?` and
  `(?P<host>[^/:]*:[0-9]*)/(?P<bucket>[^/]*)(/(?P<key>.*))?` are embedded as
  capture functions (`s3CapAt`, `endpointCapAt`) tried at every start position
  (`findFirst`), which is exactly the leftmost-match semantics of
  `Regex::is_match` / `captures_iter().next()`.  Note that the regexes are
  unanchored (they match anywhere inside the string) and that `.` does not
  match a newline.
* `s3_client` embeds the region/endpoint computation of `fn s3_client`; the
  `unimplemented!()` panic is represented by `none`.
* `count_bytes_recursive` embeds `fn count_bytes_recursive` over an abstract
  filesystem tree `FsEntry`; a walkdir entry that errors is `walkOk = false`,
  a `metadata()` call that fails is `meta = none`, and the `unwrap()` panic is
  represented by the `none` result.
* `cpTrace` / `rmTrace` embed the effect order of the `cp` and `rm` branches
  of `fn main` as explicit effect lists.
* The progress callback `move |report| { pb.lock().await.add(report.bytes) }`
  over `Arc<Mutex<ProgressBar>>` is embedded as a lock-guarded state machine
  (`SinkStep`, `SinkReach`).
-/

/-- Embeds `Regex::new(r"s3://(?P<bucket>[^/]*)(/(?P<key>.*))?")` matched at a
fixed start position: the literal `s3://`, then the greedy bucket run of
non-`/` characters, then optionally a `/` followed by the key, which `.*`
extends greedily up to (not including) a newline.  Yields the
(bucket, key) captures; an absent key group is reported as `[]`, matching
`cap.name("key").map(|x| x.as_str()).unwrap_or("")`. -/
def s3CapAt : List Char → Option (List Char × List Char)
  | 's' :: '3' :: ':' :: '/' :: '/' :: rest =>
    let bucket := rest.takeWhile (fun c => c != '/')
    match rest.dropWhile (fun c => c != '/') with
    | '/' :: tail => some (bucket, tail.takeWhile (fun c => c != '\n'))
    | _ => some (bucket, [])
  | _ => none

/-- Embeds `Regex::new(r"(?P<host>[^/:]*:[0-9]*)/(?P<bucket>[^/]*)(/(?P<key>.*))?")`
matched at a fixed start position: the greedy host run of characters that are
neither `/` nor `:`, a literal `:`, a greedy digit run, a literal `/`, the
greedy bucket run of non-`/` characters, then the same optional key group as
the S3-URI regex.  Yields (host, bucket, key); the `host` capture spans
`[^/:]*:[0-9]*`. -/
def endpointCapAt (l : List Char) : Option (List Char × List Char × List Char) :=
  let hostRun := l.takeWhile (fun c => c != '/' && c != ':')
  match l.dropWhile (fun c => c != '/' && c != ':') with
  | ':' :: r2 =>
    let digits := r2.takeWhile Char.isDigit
    match r2.dropWhile Char.isDigit with
    | '/' :: r4 =>
      let bucket := r4.takeWhile (fun c => c != '/')
      let key := match r4.dropWhile (fun c => c != '/') with
        | '/' :: tail => tail.takeWhile (fun c => c != '\n')
        | _ => ([] : List Char)
      some (hostRun ++ ':' :: digits, bucket, key)
    | _ => none
  | _ => none

/-- Leftmost matching: try the capture function at position 0, then at each
later start position, returning the first success.  This is the semantics of
`Regex::is_match` (some position matches) and `captures_iter().next()` (the
captures of the leftmost match). -/
def findFirst {α : Type} (f : List Char → Option α) : List Char → Option α
  | [] => f []
  | a :: rest =>
    match f (a :: rest) with
    | some x => some x
    | none => findFirst f rest

/-- Embeds `enum Location` of `src/main.rs` (variants `S3 { host, bucket, key }`
and `Path(PathBuf)`). -/
inductive Location
  | S3 (host : Option String) (bucket : String) (key : String)
  | Path (path : String)
deriving DecidableEq

/-- Embeds `impl From<&str> for Location`: if the S3-URI regex matches
anywhere, use its leftmost captures with `host = None`; otherwise if the
host-qualified regex matches anywhere, use its leftmost captures; otherwise
fall back to `Location::Path(PathBuf::from(val))` with the string verbatim. -/
def Location.fromStr (val : String) : Location :=
  match findFirst s3CapAt val.toList with
  | some (b, k) => Location.S3 none b.asString k.asString
  | none =>
    match findFirst endpointCapAt val.toList with
    | some (h, b, k) => Location.S3 (some h.asString) b.asString k.asString
    | none => Location.Path val

/-- Is the parsed location the `Path` variant? -/
def Location.isPath : Location → Bool
  | Location.Path _ => true
  | _ => false

/-- Is the parsed location the `S3` variant? -/
def Location.isS3 : Location → Bool
  | Location.S3 .. => true
  | _ => false

/-- Embeds `rusoto_core::region::Region` as used by `fn s3_client`: the two
named regions the code maps, and the `Region::Custom { name, endpoint }`
variant. -/
inductive Region
  | euWest1
  | usEast1
  | custom (name : String) (endpoint : String)
deriving DecidableEq

/-- The observable configuration of the constructed `S3Client`: the region (or
custom endpoint) it is given, and the profile set on the `ProfileProvider`. -/
structure ClientCfg where
  region : Region
  profile : String
deriving DecidableEq

/-- Embeds `let mut region = match region { "eu-west-1" => Region::EuWest1,
"us-east-1" => Region::UsEast1, _ => unimplemented!() }`; `none` represents
the `unimplemented!()` panic. -/
def regionOfName (region : String) : Option Region :=
  if region = "eu-west-1" then some Region.euWest1
  else if region = "us-east-1" then some Region.usEast1
  else none

/-- Embeds `fn s3_client(profile, sse, region, host)`:  first the region name
is matched (panicking, i.e. `none`, on anything but the two known names), then
`if let Some(host) = host` overrides it with
`Region::Custom { name: "custom", endpoint: format!("http://\x7b\x7d", host) }`,
and the client is built with the profile.  `sse` is not consulted (it is used
only by the `PutObjectRequest` factory in `main`). -/
def s3_client (profile : String) (sse : Bool) (region : String)
    (host : Option String) : Option ClientCfg :=
  match regionOfName region with
  | none => none
  | some r =>
    some { region := match host with
                     | some h => Region.custom "custom" ("http://" ++ h)
                     | none => r
           profile := profile }

/-- Abstract filesystem tree for `fn count_bytes_recursive`.  A `file` carries
whether the walkdir step yields it as `Ok` (`walkOk`) and the result of the
subsequent `metadata()` call (`meta = none` means the call fails, e.g. the
file was deleted between the walk step and the stat).  A `dir` carries whether
its walk step succeeds; a dir whose walk errors contributes none of its
entries. -/
inductive FsEntry
  | file (walkOk : Bool) (meta : Option Nat)
  | dir (walkOk : Bool) (entries : List FsEntry)

mutual

/-- The `walkdir::WalkDir::new(path).into_iter().filter_map(...)` pipeline:
entries whose walk step errors are dropped by `entry.ok()`, only regular files
pass `entry.file_type().is_file()`, and for each surviving file the later
`file.metadata()` result is recorded. -/
def walkFiles : FsEntry → List (Option Nat)
  | FsEntry.file true m => [m]
  | FsEntry.file false _ => []
  | FsEntry.dir true es => walkFilesList es
  | FsEntry.dir false _ => []

/-- Walk a list of sibling entries in order. -/
def walkFilesList : List FsEntry → List (Option Nat)
  | [] => []
  | e :: es => walkFiles e ++ walkFilesList es

end

/-- The accumulation loop `bytes += file.metadata().unwrap().len()`: the first
failing `metadata()` hits the `unwrap()` panic, represented by `none`. -/
def sumBytes : List (Option Nat) → Option Nat
  | [] => some 0
  | none :: _ => none
  | some n :: rest => (sumBytes rest).map (fun b => n + b)

/-- Embeds `fn count_bytes_recursive(path) -> u64`; `none` represents a panic
of the `metadata().unwrap()` inside the loop. -/
def count_bytes_recursive (fs : FsEntry) : Option Nat :=
  sumBytes (walkFiles fs)

/-- The observable effects of one CLI invocation, in program order.  The
`panic` constructors terminate the process, so they are always last. -/
inductive Effect
  | countBytes
  | mkClient (cfg : ClientCfg)
  | initBar (total : Nat)
  | uploadFiles (bucket : String) (key : String)
  | listDeleteAll (bucket : String) (key : String)
  | fatalMsg (msg : String)
  | panicMetadata
  | panicUnimplemented
deriving DecidableEq

/-- The panic message of the `rm` branch for a non-S3 argument. -/
def rmFatalText : String := "Error: `prefix` must be an S3 location"

/-- Embeds the `cp` branch of `fn main` as its effect sequence: parse both
arguments, and only in the `(Location::Path, Location::S3)` arm run
`count_bytes_recursive`, build the client, create the progress bar with the
byte total, and call `s3_upload_files`; every other arm hits
`unimplemented!()` with no preceding effect.  `fs` is the filesystem tree at
the source path. -/
def cpTrace (fs : FsEntry) (profile : String) (sse : Bool) (region : String)
    (src dest : String) : List Effect :=
  match Location.fromStr src, Location.fromStr dest with
  | Location.Path _, Location.S3 host bucket key =>
    Effect.countBytes ::
      (match count_bytes_recursive fs with
       | none => [Effect.panicMetadata]
       | some total =>
         match s3_client profile sse region host with
         | none => [Effect.panicUnimplemented]
         | some client =>
           [Effect.mkClient client, Effect.initBar total,
            Effect.uploadFiles bucket key])
  | _, _ => [Effect.panicUnimplemented]

/-- Embeds the `rm` branch of `fn main` as its effect sequence: parse the
argument; for `Location::S3` build the client and call
`s3_list_prefix(...).delete_all()`; otherwise `panic!` with the error message
and no other effect. -/
def rmTrace (profile : String) (sse : Bool) (region : String)
    (pfx : String) : List Effect :=
  match Location.fromStr pfx with
  | Location.S3 host bucket key =>
    match s3_client profile sse region host with
    | none => [Effect.panicUnimplemented]
    | some client => [Effect.mkClient client, Effect.listDeleteAll bucket key]
  | Location.Path _ => [Effect.fatalMsg rmFatalText]

/-- State of the `tokio::sync::Mutex` guarding the progress bar, as seen by
one in-flight `on_report` call: free, held before the counter is read, or
held with the read value in the caller's register. -/
inductive LockSt
  | free
  | held
  | heldRead (reg : Nat)

/-- Global state of the progress sink: `pending` callbacks that have not yet
acquired the lock, the lock state, the cumulative byte `counter` of the
progress bar, and the number of `finished` callbacks. -/
structure SinkSt where
  pending : Nat
  lock : LockSt
  counter : Nat
  finished : Nat

/-- Initial sink state for `N` concurrent `on_report` calls. -/
def initSink (N : Nat) : SinkSt :=
  { pending := N, lock := LockSt.free, counter := 0, finished := 0 }

/-- One interleaving step of the progress callbacks, each running
`pb.lock().await.add(report.bytes)` with `report.bytes = k`.  A pending call
may acquire the free lock; the holder reads the counter into its register;
the holder writes back `reg + k` and releases.  Only the lock holder touches
the counter, which is exactly what `Arc<Mutex<ProgressBar>>` enforces. -/
inductive SinkStep (k : Nat) : SinkSt → SinkSt → Prop
  | acquire (p c f : Nat) :
      SinkStep k ⟨p + 1, LockSt.free, c, f⟩ ⟨p, LockSt.held, c, f⟩
  | read (p c f : Nat) :
      SinkStep k ⟨p, LockSt.held, c, f⟩ ⟨p, LockSt.heldRead c, c, f⟩
  | write (p r c f : Nat) :
      SinkStep k ⟨p, LockSt.heldRead r, c, f⟩ ⟨p, LockSt.free, r + k, f + 1⟩

/-- The states reachable by interleaving `N` concurrent `on_report` calls of
`k` bytes each, starting from the initial sink state. -/
inductive SinkReach (N k : Nat) : SinkSt → Prop
  | init : SinkReach N k (initSink N)
  | step {s t : SinkSt} : SinkReach N k s → SinkStep k s t → SinkReach N k t

/-- The spec's S3-URI grammar, read as a form the whole string takes:
`s3://<bucket>(/<key>)?` where the bucket is everything up to the first `/`
or the end of the string and the key is everything after it.  Every string
beginning with the literal `s3://` is of this form, and no other string is. -/
def specS3Grammar (s : String) : Bool :=
  match s.toList with
  | 's' :: '3' :: ':' :: '/' :: '/' :: _ => true
  | _ => false

/-- The spec's host-qualified grammar, read as a form the whole string takes:
`<host>:<port>/<bucket>(/<key>)?` where the host excludes `/` and `:` and the
port is a run of digits.  The string is of this form when its maximal leading
run of non-`/`, non-`:` characters is followed by `:`, a digit run, and `/`;
the bucket/key tail then matches any remainder. -/
def specHostGrammar (s : String) : Bool :=
  match (s.toList).dropWhile (fun c => c != '/' && c != ':') with
  | ':' :: r2 =>
    match r2.dropWhile Char.isDigit with
    | '/' :: _ => true
    | _ => false
  | _ => false

/-! ### Helper lemmas about the greedy character runs -/

theorem takeWhile_append_all {α : Type} (p : α → Bool) :
    ∀ (B l : List α), B.all p = true →
      (B ++ l).takeWhile p = B ++ l.takeWhile p := by
  intro B l h
  induction B with
  | nil => simp
  | cons a as ih =>
    simp only [List.all_cons, Bool.and_eq_true] at h
    simp [List.takeWhile_cons, h.1, ih h.2]

theorem dropWhile_append_all {α : Type} (p : α → Bool) :
    ∀ (B l : List α), B.all p = true →
      (B ++ l).dropWhile p = l.dropWhile p := by
  intro B l h
  induction B with
  | nil => simp
  | cons a as ih =>
    simp only [List.all_cons, Bool.and_eq_true] at h
    simp [List.dropWhile_cons, h.1, ih h.2]

theorem takeWhile_all {α : Type} (p : α → Bool) (B : List α)
    (h : B.all p = true) : B.takeWhile p = B := by
  have := takeWhile_append_all p B [] h
  simpa using this

theorem dropWhile_all {α : Type} (p : α → Bool) (B : List α)
    (h : B.all p = true) : B.dropWhile p = [] := by
  have := dropWhile_append_all p B [] h
  simpa using this

theorem findFirst_here {α : Type} (f : List Char → Option α) (l : List Char)
    (x : α) (h : f l = some x) : findFirst f l = some x := by
  cases l with
  | nil => simpa [findFirst] using h
  | cons a rest => simp [findFirst, h]

theorem toList_append (a b : String) : (a ++ b).toList = a.toList ++ b.toList := by
  cases a; cases b; rfl

theorem toList_asString (l : List Char) : l.asString.toList = l := rfl

/-- Sanity: the six assertions of `test_location_parsing` in `src/main.rs`
hold for the embedding. -/
theorem location_unit_tests :
    Location.fromStr "s3://a-b-c/abc" = Location.S3 none "a-b-c" "abc" ∧
    Location.fromStr "s3://a-b-c" = Location.S3 none "a-b-c" "" ∧
    Location.fromStr "s3://a-b-c/" = Location.S3 none "a-b-c" "" ∧
    Location.fromStr "s3://a-b-c/path/to/key" =
      Location.S3 none "a-b-c" "path/to/key" ∧
    Location.fromStr "anything/else" = Location.Path "anything/else" ∧
    Location.fromStr "localhost:9000/testing/key" =
      Location.S3 (some "localhost:9000") "testing" "key" := by
  refine ⟨by decide, by decide, by decide, by decide, by decide, by decide⟩

/-- Claim C1 counterexample: the string `a/s3://b` matches neither the spec's
S3-URI grammar nor its host-qualified grammar (both read as forms of the whole
string), yet parsing does not fall back to `Local` with the verbatim string:
because the regex is unanchored, the embedded `s3://b` substring wins and the
result is `Remote{host: none, bucket: "b", key: ""}`. -/
theorem c1_local_fallback_cex :
    specS3Grammar "a/s3://b" = false ∧
    specHostGrammar "a/s3://b" = false ∧
    Location.fromStr "a/s3://b" = Location.S3 none "b" "" ∧
    Location.fromStr "a/s3://b" ≠ Location.Path "a/s3://b" := by
  refine ⟨by decide, by decide, by decide, by decide⟩

/-- Claim C1 (amended): parsing is total (`Location.fromStr` is a total
function), and for every string in which neither regex finds a match at any
start position, parsing yields `Path` with the input string verbatim — no
normalization and no filesystem check. -/
theorem c1_local_fallback (s : String)
    (h1 : findFirst s3CapAt s.toList = none)
    (h2 : findFirst endpointCapAt s.toList = none) :
    Location.fromStr s = Location.Path s := by
  unfold Location.fromStr
  rw [h1, h2]

/-- Witness for the amended C1 at the concrete input `anything`. -/
theorem c1_local_fallback_w :
    Location.fromStr "anything" = Location.Path "anything" :=
  c1_local_fallback "anything" (by decide) (by decide)

/-- Claim C2 counterexample: the key capture uses `.*`, which does not match a
newline, so for the non-empty key `a\nb` the string `s3://b/a\nb` parses with
key `a`, not the literal key `a\nb`. -/
theorem c2_s3_uri_cex :
    Location.fromStr "s3://b/a\nb" = Location.S3 none "b" "a" ∧
    Location.S3 none "b" "a" ≠ Location.S3 none "b" "a\nb" := by
  refine ⟨by decide, by decide⟩

/-- Claim C2 (amended): for every bucket `B` without `/`, parsing `s3://B` and
`s3://B/` both yield `Remote{host: none, bucket: B, key: ""}`; and for every
non-empty key `K` that additionally contains no newline, parsing `s3://B/K`
yields `Remote{host: none, bucket: B, key: K}` — in particular a trailing
slash of `K` is preserved as part of the literal key. -/
theorem c2_s3_uri (B K : List Char)
    (hB : B.all (fun c => c != '/') = true) :
    Location.fromStr ("s3://" ++ B.asString) = Location.S3 none B.asString "" ∧
    Location.fromStr ("s3://" ++ B.asString ++ "/") =
      Location.S3 none B.asString "" ∧
    (K ≠ [] → K.all (fun c => c != '\n') = true →
      Location.fromStr ("s3://" ++ B.asString ++ "/" ++ K.asString) =
        Location.S3 none B.asString K.asString) := by
  have hpre : "s3://".toList = ['s', '3', ':', '/', '/'] := rfl
  have hsl : (('/' : Char) != '/') = false := rfl
  refine ⟨?_, ?_, ?_⟩
  · have hl : ("s3://" ++ B.asString).toList =
        's' :: '3' :: ':' :: '/' :: '/' :: B := by
      rw [toList_append, toList_asString, hpre]; rfl
    have hcap : s3CapAt ('s' :: '3' :: ':' :: '/' :: '/' :: B) =
        some (B, []) := by
      simp only [s3CapAt]
      rw [dropWhile_all _ B hB, takeWhile_all _ B hB]
    unfold Location.fromStr
    rw [hl, findFirst_here _ _ _ hcap]
    rfl
  · have hl : ("s3://" ++ B.asString ++ "/").toList =
        's' :: '3' :: ':' :: '/' :: '/' :: (B ++ ['/']) := by
      rw [toList_append, toList_append, toList_asString, hpre]
      simp
    have hcap : s3CapAt ('s' :: '3' :: ':' :: '/' :: '/' :: (B ++ ['/'])) =
        some (B, []) := by
      simp only [s3CapAt]
      rw [takeWhile_append_all _ B ['/'] hB, dropWhile_append_all _ B ['/'] hB]
      simp [List.takeWhile_cons, List.dropWhile_cons, hsl]
    unfold Location.fromStr
    rw [hl, findFirst_here _ _ _ hcap]
    rfl
  · intro _ hK
    have hl : ("s3://" ++ B.asString ++ "/" ++ K.asString).toList =
        's' :: '3' :: ':' :: '/' :: '/' :: (B ++ '/' :: K) := by
      rw [toList_append, toList_append, toList_append, toList_asString,
        toList_asString, hpre]
      simp
    have hcap : s3CapAt ('s' :: '3' :: ':' :: '/' :: '/' :: (B ++ '/' :: K)) =
        some (B, K) := by
      simp only [s3CapAt]
      rw [takeWhile_append_all _ B ('/' :: K) hB,
        dropWhile_append_all _ B ('/' :: K) hB]
      simp [List.takeWhile_cons, List.dropWhile_cons, hsl,
        takeWhile_all _ K hK]
    unfold Location.fromStr
    rw [hl, findFirst_here _ _ _ hcap]

/-- Witness for the amended C2 at `B = b`, `K = k`. -/
theorem c2_s3_uri_w :
    Location.fromStr ("s3://" ++ List.asString ['b'] ++ "/" ++
        List.asString ['k']) =
      Location.S3 none (List.asString ['b']) (List.asString ['k']) :=
  (c2_s3_uri ['b'] ['k'] (by decide)).2.2 (by decide) (by decide)

/-- Claim C3 counterexample, with `H = h` (no `/` or `:`) and `P = 1`
(numeric) throughout.  Three instances of the form `H:P/B/K` refute the claim
as stated: with `K = s3://x` the unanchored S3-URI regex matches inside the
key and wins, so the host-qualified grammar is not even consulted; with
`K = x\ny` the key is truncated at the newline; and `h:1/b/c/k`, which is
`H:P/B/K` for `B = b/c`, `K = k`, parses with bucket `b` and key `c/k`
instead. -/
theorem c3_host_qualified_cex :
    Location.fromStr "h:1/b/s3://x" = Location.S3 none "x" "" ∧
    Location.S3 none "x" "" ≠ Location.S3 (some "h:1") "b" "s3://x" ∧
    Location.fromStr "h:1/b/x\ny" = Location.S3 (some "h:1") "b" "x" ∧
    Location.S3 (some "h:1") "b" "x" ≠ Location.S3 (some "h:1") "b" "x\ny" ∧
    Location.fromStr "h:1/b/c/k" = Location.S3 (some "h:1") "b" "c/k" ∧
    Location.S3 (some "h:1") "b" "c/k" ≠ Location.S3 (some "h:1") "b/c" "k" := by
  refine ⟨by decide, by decide, by decide, by decide, by decide, by decide⟩

/-- Claim C3 (amended): for every string `H:P/B/K` where `H` contains no `/`
and no `:`, `P` is a digit run, `B` contains no `/`, `K` contains no newline,
and the S3-URI regex finds no match anywhere in the string, parsing yields
`Remote{host: Some(H:P), bucket: B, key: K}`.  Moreover matching is
first-match-wins: whenever the S3-URI regex produces (leftmost) captures, the
parse result is built from them with `host = none`, and the host-qualified
regex is never consulted. -/
theorem c3_host_qualified :
    (∀ H P B K : List Char,
      H.all (fun c => c != '/' && c != ':') = true →
      P.all Char.isDigit = true →
      B.all (fun c => c != '/') = true →
      K.all (fun c => c != '\n') = true →
      findFirst s3CapAt (H ++ (':' :: (P ++ ('/' :: (B ++ ('/' :: K)))))) =
        none →
      Location.fromStr
          (H ++ (':' :: (P ++ ('/' :: (B ++ ('/' :: K)))))).asString =
        Location.S3 (some (H ++ (':' :: P)).asString) B.asString K.asString) ∧
    (∀ (s : String) (b k : List Char),
      findFirst s3CapAt s.toList = some (b, k) →
      Location.fromStr s = Location.S3 none b.asString k.asString) := by
  constructor
  · intro H P B K hH hP hB hK hs3
    have q1 : List.takeWhile (fun c => c != '/' && c != ':')
        (H ++ (':' :: (P ++ ('/' :: (B ++ ('/' :: K)))))) = H := by
      rw [takeWhile_append_all _ H _ hH]
      show H ++ ([] : List Char) = H
      simp
    have q2 : List.dropWhile (fun c => c != '/' && c != ':')
        (H ++ (':' :: (P ++ ('/' :: (B ++ ('/' :: K)))))) =
        ':' :: (P ++ ('/' :: (B ++ ('/' :: K)))) := by
      rw [dropWhile_append_all _ H _ hH]
      rfl
    have q3 : List.takeWhile Char.isDigit
        (P ++ ('/' :: (B ++ ('/' :: K)))) = P := by
      rw [takeWhile_append_all _ P _ hP]
      show P ++ ([] : List Char) = P
      simp
    have q4 : List.dropWhile Char.isDigit (P ++ ('/' :: (B ++ ('/' :: K)))) =
        '/' :: (B ++ ('/' :: K)) := by
      rw [dropWhile_append_all _ P _ hP]
      rfl
    have q5 : List.takeWhile (fun c => c != '/') (B ++ ('/' :: K)) = B := by
      rw [takeWhile_append_all _ B _ hB]
      show B ++ ([] : List Char) = B
      simp
    have q6 : List.dropWhile (fun c => c != '/') (B ++ ('/' :: K)) =
        '/' :: K := by
      rw [dropWhile_append_all _ B _ hB]
      rfl
    have q7 : List.takeWhile (fun c => c != '\n') K = K :=
      takeWhile_all _ K hK
    have hcap : endpointCapAt
        (H ++ (':' :: (P ++ ('/' :: (B ++ ('/' :: K)))))) =
        some (H ++ (':' :: P), B, K) := by
      simp only [endpointCapAt, q1, q2, q3, q4, q5, q6, q7]
    unfold Location.fromStr
    rw [toList_asString, hs3, findFirst_here _ _ _ hcap]
  · intro s b k h
    unfold Location.fromStr
    rw [h]

/-- Witness for the amended C3 at `H = h`, `P = 1`, `B = b`, `K = k` (first
part) and at the input `s3://a-b-c/abc` (first-match-wins part). -/
theorem c3_host_qualified_w :
    Location.fromStr
        (['h'] ++ (':' :: (['1'] ++ ('/' :: (['b'] ++
          ('/' :: ['k'])))))).asString =
      Location.S3 (some ((['h'] ++ (':' :: ['1'])).asString))
        (List.asString ['b']) (List.asString ['k']) ∧
    Location.fromStr "s3://a-b-c/abc" =
      Location.S3 none (List.asString ['a', '-', 'b', '-', 'c'])
        (List.asString ['a', 'b', 'c']) :=
  ⟨c3_host_qualified.1 ['h'] ['1'] ['b'] ['k'] (by decide) (by decide)
      (by decide) (by decide) (by decide),
    c3_host_qualified.2 "s3://a-b-c/abc" ['a', '-', 'b', '-', 'c']
      ['a', 'b', 'c'] (by decide)⟩

/-- Claim C4: when the argument of `rm` does not parse to a remote location,
the effect trace is exactly the fatal error message — no client construction,
no filesystem access, no delete; when it parses to `S3` (and the client can
be built), the whole operation is the client construction followed by the
delegation to the external list-and-delete-all collaborator. -/
theorem c4_rm_remote_only (profile : String) (sse : Bool) (region : String)
    (pfx : String) :
    (∀ p, Location.fromStr pfx = Location.Path p →
      rmTrace profile sse region pfx = [Effect.fatalMsg rmFatalText]) ∧
    (∀ host bucket key client, Location.fromStr pfx = Location.S3 host bucket key →
      s3_client profile sse region host = some client →
      rmTrace profile sse region pfx =
        [Effect.mkClient client, Effect.listDeleteAll bucket key]) := by
  constructor
  · intro p hp
    unfold rmTrace
    rw [hp]
  · intro host bucket key client hl hc
    simp only [rmTrace, hl, hc]

/-- Witness for C4: `rm ./localdir` dies with the fatal message and performs
no other effect, while `rm s3://b/k` delegates. -/
theorem c4_rm_remote_only_w :
    rmTrace "p" false "eu-west-1" "./localdir" = [Effect.fatalMsg rmFatalText] ∧
    rmTrace "p" false "eu-west-1" "s3://b/k" =
      [Effect.mkClient ⟨Region.euWest1, "p"⟩, Effect.listDeleteAll "b" "k"] :=
  ⟨(c4_rm_remote_only "p" false "eu-west-1" "./localdir").1 "./localdir"
      (by decide),
    (c4_rm_remote_only "p" false "eu-west-1" "s3://b/k").2 none "b" "k"
      ⟨Region.euWest1, "p"⟩ (by decide) rfl⟩

/-- Claim C5: for `cp`, every (source, destination) combination other than
local source with remote destination produces exactly the
`unimplemented!()` panic as its whole effect trace — no enumeration, no
client, no transfer. -/
theorem c5_cp_direction (fs : FsEntry) (profile : String) (sse : Bool)
    (region : String) (src dest : String)
    (h : ((Location.fromStr src).isPath && (Location.fromStr dest).isS3)
      = false) :
    cpTrace fs profile sse region src dest = [Effect.panicUnimplemented] := by
  unfold cpTrace
  cases hs : Location.fromStr src with
  | Path p =>
    cases hd : Location.fromStr dest with
    | S3 host bucket key =>
      rw [hs, hd] at h
      simp [Location.isPath, Location.isS3] at h
    | Path q => rfl
  | S3 host bucket key => rfl

/-- Witness for C5 at the remote-to-local input
`cp s3://bucket/key ./localdir`. -/
theorem c5_cp_direction_w :
    cpTrace (FsEntry.dir true []) "p" false "eu-west-1" "s3://bucket/key"
      "./localdir" = [Effect.panicUnimplemented] :=
  c5_cp_direction (FsEntry.dir true []) "p" false "eu-west-1"
    "s3://bucket/key" "./localdir" (by decide)

/-- Claim C7: on the local-to-remote upload path the byte total is computed
(first effect) before the client is built, and the trace shows it is consumed
exactly once — as the initial value of the progress bar — while the upload
delegation receives only the bucket and key, never the total. -/
theorem c7_total_before_upload (fs : FsEntry) (profile : String) (sse : Bool)
    (region : String) (src dest : String) (p : String) (host : Option String)
    (bucket key : String) (total : Nat) (client : ClientCfg)
    (hsrc : Location.fromStr src = Location.Path p)
    (hdest : Location.fromStr dest = Location.S3 host bucket key)
    (hcount : count_bytes_recursive fs = some total)
    (hclient : s3_client profile sse region host = some client) :
    cpTrace fs profile sse region src dest =
      [Effect.countBytes, Effect.mkClient client, Effect.initBar total,
       Effect.uploadFiles bucket key] := by
  simp only [cpTrace, hsrc, hdest, hcount, hclient]

/-- Witness for C7: one file of 5 bytes, upload `cp d s3://b/k`. -/
theorem c7_total_before_upload_w :
    cpTrace (FsEntry.dir true [FsEntry.file true (some 5)]) "p" false
      "eu-west-1" "d" "s3://b/k" =
      [Effect.countBytes, Effect.mkClient ⟨Region.euWest1, "p"⟩,
       Effect.initBar 5, Effect.uploadFiles "b" "k"] :=
  c7_total_before_upload (FsEntry.dir true [FsEntry.file true (some 5)])
    "p" false "eu-west-1" "d" "s3://b/k" "d" none "b" "k" 5
    ⟨Region.euWest1, "p"⟩ (by decide) (by decide) rfl rfl

/-- Claim C6 counterexample: `count_bytes_recursive` is not fully best-effort
and can fail.  For a tree with one regular file whose walk step succeeds but
whose `metadata()` call fails (the race-deleted-file scenario the claim says
is silently skipped), the loop body hits `file.metadata().unwrap()` and the
process panics — represented by the `none` result — instead of skipping the
entry. -/
theorem c6_skip_policy_cex :
    count_bytes_recursive (FsEntry.dir true [FsEntry.file true none]) =
      none := rfl

/-- Claim C6 (amended): entries whose walkdir step errors are indeed silently
skipped by `count_bytes_recursive` — dropping an errored file or an errored
directory (with its whole subtree) from a listing leaves the total unchanged —
but a successfully walked file whose later `metadata()` call fails makes
`count_bytes_recursive` panic (`none`) rather than being skipped, so the
total-bytes computation is not failure-free. -/
theorem c6_skip_policy :
    (∀ (m : Option Nat) (es : List FsEntry),
      count_bytes_recursive (FsEntry.dir true (FsEntry.file false m :: es)) =
        count_bytes_recursive (FsEntry.dir true es)) ∧
    (∀ (sub : List FsEntry) (es : List FsEntry),
      count_bytes_recursive (FsEntry.dir true (FsEntry.dir false sub :: es)) =
        count_bytes_recursive (FsEntry.dir true es)) ∧
    (∀ es : List FsEntry,
      count_bytes_recursive (FsEntry.dir true (FsEntry.file true none :: es)) =
        none) := by
  refine ⟨?_, ?_, ?_⟩
  · intro m es
    simp [count_bytes_recursive, walkFiles, walkFilesList]
  · intro sub es
    simp [count_bytes_recursive, walkFiles, walkFilesList]
  · intro es
    simp [count_bytes_recursive, walkFiles, walkFilesList, sumBytes]

/-- Invariant of the progress-sink state machine: the counter always equals
`finished * k`, and while the lock holder has read the counter into its
register the register still equals the counter (no other task can write, since
writing requires holding the lock). -/
theorem sink_invariant (N k : Nat) (s : SinkSt) (hr : SinkReach N k s) :
    s.counter = s.finished * k ∧
    (∀ r, s.lock = LockSt.heldRead r → r = s.counter) := by
  induction hr with
  | init => exact ⟨by simp [initSink], by intro r h; simp [initSink] at h⟩
  | step hprev hstep ih =>
    cases hstep with
    | acquire p c f =>
      refine ⟨ih.1, ?_⟩
      intro r h
      simp at h
    | read p c f =>
      refine ⟨ih.1, ?_⟩
      intro r h
      simp at h
      exact h.symm
    | write p r c f =>
      have hrc : r = c := ih.2 r rfl
      have hc : c = f * k := ih.1
      constructor
      · show r + k = (f + 1) * k
        rw [hrc, hc, Nat.succ_mul]
      · intro r2 h
        simp at h

/-- Claim C8: the progress sink serializes updates via the mutex, so after any
interleaving of `N` concurrent `on_report` calls each adding `k` bytes (any
state reachable in the lock-guarded read/write machine in which all `N` calls
have finished), the cumulative counter is exactly `N * k` — no increment lost
or double-counted. -/
theorem c8_progress_serialized (N k : Nat) (s : SinkSt)
    (hr : SinkReach N k s) (hf : s.finished = N) : s.counter = N * k := by
  have h := (sink_invariant N k s hr).1
  rw [h, hf]

/-- Witness for C8: an explicit interleaving of two callbacks of 3 bytes each
reaching the final state, whose counter is 2 * 3. -/
theorem c8_progress_serialized_w :
    SinkSt.counter ⟨0, LockSt.free, 6, 2⟩ = 2 * 3 :=
  c8_progress_serialized 2 3 ⟨0, LockSt.free, 6, 2⟩
    (SinkReach.step
      (SinkReach.step
        (SinkReach.step
          (SinkReach.step
            (SinkReach.step
              (SinkReach.step SinkReach.init (SinkStep.acquire 1 0 0))
              (SinkStep.read 1 0 0))
            (SinkStep.write 1 0 0 0))
          (SinkStep.acquire 0 3 1))
        (SinkStep.read 0 3 1))
      (SinkStep.write 0 3 3 1))
    rfl

/-- Claim C9: with no custom host, a `--region` value other than `eu-west-1`
or `us-east-1` makes the client constructor panic (`unimplemented!()`), so
both the `cp` upload path and the `rm` delete path terminate before any
transfer effect; and exactly those two region names are accepted. -/
theorem c9_region_gate (profile : String) (sse : Bool) (region : String)
    (h1 : region ≠ "eu-west-1") (h2 : region ≠ "us-east-1") :
    s3_client profile sse region none = none ∧
    (∀ (fs : FsEntry) (src dest p : String) (b k : String) (total : Nat),
      Location.fromStr src = Location.Path p →
      Location.fromStr dest = Location.S3 none b k →
      count_bytes_recursive fs = some total →
      cpTrace fs profile sse region src dest =
        [Effect.countBytes, Effect.panicUnimplemented]) ∧
    (∀ (pfx b k : String), Location.fromStr pfx = Location.S3 none b k →
      rmTrace profile sse region pfx = [Effect.panicUnimplemented]) ∧
    (s3_client profile sse "eu-west-1" none).isSome = true ∧
    (s3_client profile sse "us-east-1" none).isSome = true := by
  have hno : regionOfName region = none := by
    unfold regionOfName
    rw [if_neg h1, if_neg h2]
  have hcl : s3_client profile sse region none = none := by
    unfold s3_client
    rw [hno]
  refine ⟨hcl, ?_, ?_, rfl, rfl⟩
  · intro fs src dest p b k total hsrc hdest hcount
    simp only [cpTrace, hsrc, hdest, hcount, hcl]
  · intro pfx b k hpfx
    simp only [rmTrace, hpfx, hcl]

/-- Witness for C9 at `--region eu-central-1`: the client constructor
panics, `cp d s3://b/k` dies after counting and before any transfer, and
`rm s3://b/k` dies before any delete. -/
theorem c9_region_gate_w :
    s3_client "p" false "eu-central-1" none = none ∧
    cpTrace (FsEntry.dir true []) "p" false "eu-central-1" "d" "s3://b/k" =
      [Effect.countBytes, Effect.panicUnimplemented] ∧
    rmTrace "p" false "eu-central-1" "s3://b/k" =
      [Effect.panicUnimplemented] :=
  ⟨(c9_region_gate "p" false "eu-central-1" (by decide) (by decide)).1,
    (c9_region_gate "p" false "eu-central-1" (by decide) (by decide)).2.1
      (FsEntry.dir true []) "d" "s3://b/k" "d" "b" "k" 0 (by decide)
      (by decide) rfl,
    (c9_region_gate "p" false "eu-central-1" (by decide) (by decide)).2.2.1
      "s3://b/k" "b" "k" (by decide)⟩

/-- Claim C10 counterexample: the `--region` argument is not ignored when the
location carries a host.  With host `localhost:9000` and region
`eu-central-1` the client constructor panics (`none`) before the custom
endpoint is ever installed, because the region name is matched first. -/
theorem c10_custom_endpoint_cex :
    s3_client "p" false "eu-central-1" (some "localhost:9000") = none := rfl

/-- Claim C10 (amended): whenever the client is actually constructed for a
location carrying a host, its region is the custom one with endpoint
`http://` prepended to the host (plain HTTP, never HTTPS) regardless of which
accepted region name was passed — the two accepted names yield identical
clients — but the region argument must still be one of the two accepted
names, or the constructor panics first. -/
theorem c10_custom_endpoint (profile : String) (sse : Bool) (region : String)
    (h : String) (cfg : ClientCfg)
    (hc : s3_client profile sse region (some h) = some cfg) :
    cfg = ⟨Region.custom "custom" ("http://" ++ h), profile⟩ ∧
    s3_client profile sse "eu-west-1" (some h) =
      s3_client profile sse "us-east-1" (some h) := by
  constructor
  · unfold s3_client at hc
    cases hr : regionOfName region with
    | none => rw [hr] at hc; exact absurd hc (by simp)
    | some r =>
      rw [hr] at hc
      simp only [Option.some_inj] at hc
      exact hc.symm
  · rfl

/-- Witness for the amended C10 at host `localhost:9000`, region
`eu-west-1`. -/
theorem c10_custom_endpoint_w :
    (⟨Region.custom "custom" "http://localhost:9000", "p"⟩ : ClientCfg) =
      ⟨Region.custom "custom" ("http://" ++ "localhost:9000"), "p"⟩ ∧
    s3_client "p" false "eu-west-1" (some "localhost:9000") =
      s3_client "p" false "us-east-1" (some "localhost:9000") :=
  c10_custom_endpoint "p" false "eu-west-1" "localhost:9000"
    ⟨Region.custom "custom" "http://localhost:9000", "p"⟩ rfl
